import Mathlib

/-!
Shallow embedding of src/range_tree.py (a 2D range tree over dual-coordinate
points with a single-path descent query), together with proofs of the spec
claims about it.

Conventions of the embedding:
* Python `None` children and the `None` result of an empty build are encoded
  by the `leaf` constructor of the tree types; a present node dict is the
  `node` constructor.
* Coordinates are integers (the reference program uses integer literals).
* The external geometry service (scipy `Voronoi`) is an injected parameter
  `vor`; a raised exception is an `Except.error` result, which
  `compute_voronoi` swallows into `none` exactly as the `try/except` does.
* Python `list.sort` / `sorted` (stable) are modelled by the stable
  `List.insertionSort`.
* The in-place mutation performed by `list.sort` is modelled by state
  passing: each builder returns the built tree together with the final
  contents of the list object it was handed.
-/

namespace RangeTreePy

/-- Model of the Python class `Point`: a two-dimensional coordinate. -/
structure Point where
  x : Int
  y : Int
deriving DecidableEq

/-- Model of the Python class `Node`: a dual point pairing a feature-space
`Point` with a real-space `Point`. -/
structure Node where
  feature_point : Point
  real_point : Point
deriving DecidableEq

instance : Inhabited Node := ⟨⟨⟨0, 0⟩, ⟨0, 0⟩⟩⟩

/-- Comparison used by `points.sort(key=lambda p: p.feature_point.x)`. -/
def xLe (a b : Node) : Prop := a.feature_point.x ≤ b.feature_point.x

/-- Comparison used by `points.sort(key=lambda p: p.feature_point.y)`. -/
def yLe (a b : Node) : Prop := a.feature_point.y ≤ b.feature_point.y

instance : DecidableRel xLe := fun a b =>
  inferInstanceAs (Decidable (a.feature_point.x ≤ b.feature_point.x))

instance : DecidableRel yLe := fun a b =>
  inferInstanceAs (Decidable (a.feature_point.y ≤ b.feature_point.y))

instance : IsTotal Node xLe :=
  ⟨fun a b => Int.le_total a.feature_point.x b.feature_point.x⟩

instance : IsTotal Node yLe :=
  ⟨fun a b => Int.le_total a.feature_point.y b.feature_point.y⟩

instance : IsTrans Node xLe := ⟨fun _ _ _ => Int.le_trans⟩

instance : IsTrans Node yLe := ⟨fun _ _ _ => Int.le_trans⟩

/-- Stable sort by feature-space x, modelling `points.sort(key=...x)`. -/
def sortByX (l : List Node) : List Node := List.insertionSort xLe l

/-- Stable sort by feature-space y, modelling `points.sort(key=...y)` and
`sorted(points, key=...y)`. -/
def sortByY (l : List Node) : List Node := List.insertionSort yLe l

/-- Model of the secondary-tree node dict built by `_build_tree_on_y`:
keys `point`, `left`, `right`, `voronoi`. `leaf` encodes Python `None`. -/
inductive YTree (D : Type) where
  | leaf
  | node (point : Node) (left right : YTree D) (voronoi : Option D)
deriving DecidableEq

/-- Model of the primary-tree node dict built by `_build_tree_on_x`: keys
`point`, `left`, `right`, `range_tree_on_y`, `points_sorted_by_y`,
`voronoi`. `leaf` encodes Python `None`. -/
inductive XTree (D : Type) where
  | leaf
  | node (point : Node) (left right : XTree D) (range_tree_on_y : YTree D)
      (points_sorted_by_y : List Node) (voronoi : Option D)
deriving DecidableEq

variable {D : Type}

/-- The real-space coordinate pairs handed to the geometry service,
modelling `[(p.real_point.x, p.real_point.y) for p in points]`. -/
def realCoords (points : List Node) : List (Int × Int) :=
  points.map fun p => (p.real_point.x, p.real_point.y)

/-- Model of `RangeTree2D._compute_voronoi`: fewer than 4 points yields
`none`; otherwise the external service `vor` is called on the real-space
coordinates and a raised exception (`Except.error`) is swallowed into
`none`. -/
def compute_voronoi (vor : List (Int × Int) → Except String D)
    (points : List Node) : Option D :=
  if points.length < 4 then none
  else
    match vor (realCoords points) with
    | Except.ok d => some d
    | Except.error _ => none

/-- Fuelled model of `RangeTree2D._build_tree_on_y`. The list argument is
the state of the Python list object; the second component of the result is
its state after the call (the call sorts it in place by feature-space y,
while the recursive calls receive fresh slice copies). Fuel at least the
list length makes the fuel-0 branch unreachable. -/
def build_tree_on_yAux (vor : List (Int × Int) → Except String D) :
    Nat → List Node → YTree D × List Node
  | 0, points => (YTree.leaf, points)
  | fl + 1, points =>
    if points.isEmpty then (YTree.leaf, points)
    else
      let pts := sortByY points
      let mid := pts.length / 2
      (YTree.node (pts.getD mid default)
        (build_tree_on_yAux vor fl (pts.take mid)).1
        (build_tree_on_yAux vor fl (pts.drop (mid + 1))).1
        (compute_voronoi vor pts),
       pts)

/-- Model of `RangeTree2D._build_tree_on_y` (fuel instantiated). -/
def build_tree_on_y (vor : List (Int × Int) → Except String D)
    (points : List Node) : YTree D × List Node :=
  build_tree_on_yAux vor points.length points

/-- Fuelled model of `RangeTree2D._build_tree_on_x`. Evaluation order
follows the Python dict literal: the median and the left/right slices are
taken from the x-sorted state; the nested `_build_tree_on_y` call then
re-sorts the same list object by y in place, so `points_sorted_by_y` and
the voronoi computation see the y-sorted state, which is also the final
state of the list. -/
def build_tree_on_xAux (vor : List (Int × Int) → Except String D) :
    Nat → List Node → XTree D × List Node
  | 0, points => (XTree.leaf, points)
  | fl + 1, points =>
    if points.isEmpty then (XTree.leaf, points)
    else
      let pts := sortByX points
      let mid := pts.length / 2
      let l := (build_tree_on_xAux vor fl (pts.take mid)).1
      let r := (build_tree_on_xAux vor fl (pts.drop (mid + 1))).1
      let yb := build_tree_on_y vor pts
      (XTree.node (pts.getD mid default) l r yb.1 (sortByY yb.2)
        (compute_voronoi vor yb.2),
       yb.2)

/-- Model of `RangeTree2D._build_tree_on_x` (fuel instantiated). This is
the body of the `RangeTree2D` constructor: the first component is
`self.root`, the second the final state of the caller's list. -/
def build_tree_on_x (vor : List (Int × Int) → Except String D)
    (points : List Node) : XTree D × List Node :=
  build_tree_on_xAux vor points.length points

/-- Model of `RangeTree2D._query_tree`: appends the current node to the
accumulated `visited` list and descends left when the query x-coordinate is
at most the median x-coordinate, else right. -/
def query_tree : XTree D → Node → List (XTree D) → List (XTree D)
  | XTree.leaf, _, visited => visited
  | XTree.node p l r yt sby v, query_point, visited =>
    let visited2 := visited ++ [XTree.node p l r yt sby v]
    if query_point.feature_point.x ≤ p.feature_point.x then
      query_tree l query_point visited2
    else
      query_tree r query_point visited2

/-- Model of `RangeTree2D.query`: the ordered visited-node sequence that
the method accumulates and then hands, node by node, to the visualization
sink. -/
def query (root : XTree D) (query_point : Node) : List (XTree D) :=
  query_tree root query_point []

/-- Modelled from the spec (QueryTraversal contract): the visited path,
written as a direct recursion with the result in root-to-leaf order, to be
compared with the accumulator-passing `query` taken from the source. -/
def visitedPath : XTree D → Node → List (XTree D)
  | XTree.leaf, _ => []
  | XTree.node p l r yt sby v, target =>
    XTree.node p l r yt sby v ::
      (if target.feature_point.x ≤ p.feature_point.x then visitedPath l target
       else visitedPath r target)

/-- The points stored in a secondary (sub)tree, in symmetric order. -/
def YTree.toList : YTree D → List Node
  | YTree.leaf => []
  | YTree.node p l r _ => l.toList ++ p :: r.toList

/-- The points stored in a primary (sub)tree, in symmetric order. -/
def XTree.toList : XTree D → List Node
  | XTree.leaf => []
  | XTree.node p l r _ _ _ => l.toList ++ p :: r.toList

/-- Number of nodes of a secondary (sub)tree. -/
def YTree.size : YTree D → Nat
  | YTree.leaf => 0
  | YTree.node _ l r _ => 1 + l.size + r.size

/-- Number of nodes of a primary (sub)tree. -/
def XTree.size : XTree D → Nat
  | XTree.leaf => 0
  | XTree.node _ l r _ _ _ => 1 + l.size + r.size

/-- Number of nodes on a longest root-to-leaf path: 0 for an absent tree,
and one more than the standard edge-counting height for a present one. -/
def XTree.height : XTree D → Nat
  | XTree.leaf => 0
  | XTree.node _ l r _ _ _ => 1 + max l.height r.height

/-- Whether the (sub)tree is absent, i.e. Python `None`. -/
def XTree.isLeaf : XTree D → Bool
  | XTree.leaf => true
  | XTree.node _ _ _ _ _ _ => false

/-- Invariant of claim C7 at every primary node: `points_sorted_by_y` is
non-decreasing in feature-space y and is a permutation (hence of equal
length) of the point subset the node's build call received — which is
exactly the point set stored in the subtree rooted at the node. -/
def XTree.secondaryInv : XTree D → Prop
  | XTree.leaf => True
  | XTree.node p l r _ sby _ =>
    List.Sorted yLe sby ∧ sby.Perm (l.toList ++ p :: r.toList) ∧
      sby.length = (l.toList ++ p :: r.toList).length ∧
      l.secondaryInv ∧ r.secondaryInv

/-- Search-order invariant of a secondary tree: left-subtree points have
feature-space y at most the median's, right-subtree points at least it. -/
def YTree.orderedByY : YTree D → Prop
  | YTree.leaf => True
  | YTree.node p l r _ =>
    (∀ q ∈ l.toList, yLe q p) ∧ (∀ q ∈ r.toList, yLe p q) ∧
      l.orderedByY ∧ r.orderedByY

/-- Search-order invariant of a primary tree: left-subtree points have
feature-space x at most the median's, right-subtree points at least it,
and every nested secondary tree satisfies the analogous y-invariant. -/
def XTree.orderedByX : XTree D → Prop
  | XTree.leaf => True
  | XTree.node p l r yt _ _ =>
    (∀ q ∈ l.toList, xLe q p) ∧ (∀ q ∈ r.toList, xLe p q) ∧
      l.orderedByX ∧ r.orderedByX ∧ yt.orderedByY

/-- Diagram gating in a secondary tree: every node whose subtree holds
fewer than 4 points carries no diagram. -/
def YTree.diagramGated : YTree D → Prop
  | YTree.leaf => True
  | YTree.node _ l r v =>
    (1 + l.size + r.size < 4 → v = none) ∧ l.diagramGated ∧ r.diagramGated

/-- Diagram gating in a primary tree, including its secondary trees. -/
def XTree.diagramGated : XTree D → Prop
  | XTree.leaf => True
  | XTree.node _ l r yt _ v =>
    (1 + l.size + r.size < 4 → v = none) ∧ l.diagramGated ∧ r.diagramGated ∧
      yt.diagramGated

/-- The shape of a primary tree together with the median stored at every
level, forgetting all other node payload; used to state determinism. -/
inductive MedianShape where
  | leaf
  | node (median : Node) (left right : MedianShape)
deriving DecidableEq

/-- Median selections and tree shape of a built primary tree. -/
def XTree.medianShape : XTree D → MedianShape
  | XTree.leaf => MedianShape.leaf
  | XTree.node p l r _ _ _ => MedianShape.node p l.medianShape r.medianShape

/-- Model of the `__main__` construction loop: for each index of
`feature_space` it reads `real_space[i]` and zips the two coordinate pairs
into a dual point. No length validation is performed; when `real_space` is
the shorter list the first out-of-range access raises `IndexError`
(modelled as `Except.error "IndexError"`), and otherwise the loop silently
uses the first `feature_space.length` entries of `real_space`. -/
def mkPoints (feature_space real_space : List (Int × Int)) :
    Except String (List Node) :=
  if real_space.length < feature_space.length then Except.error "IndexError"
  else
    Except.ok ((feature_space.zip real_space).map fun fr =>
      { feature_point := ⟨fr.1.1, fr.1.2⟩, real_point := ⟨fr.2.1, fr.2.2⟩ })

/-- A concrete external geometry service for witnesses and
counterexamples: it always reports failure, as scipy `Voronoi` does on
degenerate input. -/
def vorFail : List (Int × Int) → Except String Unit :=
  fun _ => Except.error "Voronoi diagram could not be computed"

/-- The real-space sample list of the reference program. -/
def demo_real_space : List (Int × Int) :=
  [(1, 2), (3, 5), (4, 1), (6, 7), (7, 3),
   (2, 8), (8, 4), (5, 6), (9, 1), (0, 3),
   (3, 7), (6, 2), (1, 9), (4, 4), (7, 5)]

/-- The feature-space sample list of the reference program. -/
def demo_feature_space : List (Int × Int) :=
  [(0, 0), (2, 1), (3, 4), (1, 6), (-1, 5),
   (-3, 3), (-2, 0), (1, -2), (3, -1), (4, 2),
   (5, 5), (3, 7), (0, 8), (-3, 6), (-4, 3)]

/-- The feature-space sample list shortened to 14 entries, the unequal-
length scenario named by the spec. -/
def demo_feature_space14 : List (Int × Int) := demo_feature_space.dropLast

/-- Two dual points whose feature x-order differs from their list order:
building from them visibly reorders the list object. -/
def cex_unsorted2 : List Node := [⟨⟨2, 2⟩, ⟨0, 0⟩⟩, ⟨⟨1, 1⟩, ⟨0, 0⟩⟩]

/-- A two-point input on which the query walks the whole tree. -/
def cex_two : List Node := [⟨⟨1, 0⟩, ⟨0, 0⟩⟩, ⟨⟨2, 0⟩, ⟨0, 0⟩⟩]

/-- A three-point input used by witnesses. -/
def wit_three : List Node :=
  [⟨⟨1, 5⟩, ⟨0, 0⟩⟩, ⟨⟨2, 4⟩, ⟨1, 1⟩⟩, ⟨⟨3, 3⟩, ⟨2, 2⟩⟩]

/-- A query target with feature x-coordinate 0. -/
def target0 : Node := ⟨⟨0, 0⟩, ⟨0, 0⟩⟩

/-! ### Basic facts about the two stable sorts -/

theorem sortByX_perm (l : List Node) : (sortByX l).Perm l :=
  List.perm_insertionSort xLe l

theorem sortByY_perm (l : List Node) : (sortByY l).Perm l :=
  List.perm_insertionSort yLe l

theorem sortByX_length (l : List Node) : (sortByX l).length = l.length :=
  (sortByX_perm l).length_eq

theorem sortByY_length (l : List Node) : (sortByY l).length = l.length :=
  (sortByY_perm l).length_eq

theorem sortByX_sorted (l : List Node) : List.Sorted xLe (sortByX l) :=
  List.sorted_insertionSort xLe l

theorem sortByY_sorted (l : List Node) : List.Sorted yLe (sortByY l) :=
  List.sorted_insertionSort yLe l

theorem sortByY_idem (l : List Node) : sortByY (sortByY l) = sortByY l :=
  (sortByY_sorted l).insertionSort_eq

theorem sortByX_eq_self {l : List Node} (h : List.Sorted xLe l) :
    sortByX l = l :=
  h.insertionSort_eq

theorem sortByY_eq_self {l : List Node} (h : List.Sorted yLe l) :
    sortByY l = l :=
  h.insertionSort_eq

/-- In a sorted list, everything strictly before the middle element is at
most the middle element, and everything strictly after it is at least the
middle element. -/
theorem sorted_split {r : Node → Node → Prop} (l : List Node) (mid : Nat)
    (hmid : mid < l.length) (hs : List.Sorted r l) :
    (∀ q ∈ l.take mid, r q (l.getD mid default)) ∧
    (∀ q ∈ l.drop (mid + 1), r (l.getD mid default) q) := by
  have hget : l.getD mid default = l[mid] := List.getD_eq_getElem l default hmid
  have hdec : l.drop mid = l[mid] :: l.drop (mid + 1) :=
    List.drop_eq_getElem_cons hmid
  constructor
  · intro q hq
    have hs2 : (l.take mid ++ l.drop mid).Pairwise r := by
      rw [List.take_append_drop]
      exact hs
    have hcross := (List.pairwise_append.mp hs2).2.2
    rw [hget]
    exact hcross q hq l[mid] (by rw [hdec]; exact List.mem_cons_self _ _)
  · intro q hq
    have hdropPW : (l.drop mid).Pairwise r := hs.sublist (List.drop_sublist mid l)
    rw [hdec] at hdropPW
    rw [hget]
    exact (List.pairwise_cons.mp hdropPW).1 q hq

/-- Splitting a list at its middle element and reassembling gives it back. -/
theorem take_getD_drop (l : List Node) (mid : Nat) (hmid : mid < l.length) :
    l.take mid ++ l.getD mid default :: l.drop (mid + 1) = l := by
  rw [List.getD_eq_getElem l default hmid, ← List.drop_eq_getElem_cons hmid,
    List.take_append_drop]

/-! ### Fuel elimination for the builders -/

theorem build_tree_on_yAux_congr (vor : List (Int × Int) → Except String D) :
    ∀ fl₁ fl₂ ps, ps.length ≤ fl₁ → ps.length ≤ fl₂ →
      build_tree_on_yAux vor fl₁ ps = build_tree_on_yAux vor fl₂ ps := by
  intro fl₁
  induction fl₁ with
  | zero =>
    intro fl₂ ps h₁ _
    have hps : ps = [] := List.length_eq_zero.mp (Nat.le_zero.mp h₁)
    subst hps
    cases fl₂ <;> simp [build_tree_on_yAux]
  | succ fl ih =>
    intro fl₂ ps h₁ h₂
    by_cases hps : ps.isEmpty
    · have hps2 : ps = [] := by simpa [List.isEmpty_iff] using hps
      subst hps2
      cases fl₂ <;> simp [build_tree_on_yAux]
    · have hlen : 1 ≤ ps.length := by
        cases ps with
        | nil => simp at hps
        | cons a l => simp
      obtain ⟨fl₂p, rfl⟩ : ∃ k, fl₂ = k + 1 := by
        cases fl₂ with
        | zero => omega
        | succ k => exact ⟨k, rfl⟩
      simp only [build_tree_on_yAux, hps, Bool.false_eq_true, if_false]
      have hslen : (sortByY ps).length = ps.length := sortByY_length ps
      have htake : ((sortByY ps).take ((sortByY ps).length / 2)).length ≤ fl := by
        simp only [List.length_take]
        omega
      have hdrop : ((sortByY ps).drop ((sortByY ps).length / 2 + 1)).length ≤ fl := by
        simp only [List.length_drop]
        omega
      have htake2 : ((sortByY ps).take ((sortByY ps).length / 2)).length ≤ fl₂p := by
        simp only [List.length_take]
        omega
      have hdrop2 : ((sortByY ps).drop ((sortByY ps).length / 2 + 1)).length ≤ fl₂p := by
        simp only [List.length_drop]
        omega
      rw [ih fl₂p _ htake htake2, ih fl₂p _ hdrop hdrop2]

theorem build_tree_on_yAux_eq (vor : List (Int × Int) → Except String D)
    (fl : Nat) (ps : List Node) (h : ps.length ≤ fl) :
    build_tree_on_yAux vor fl ps = build_tree_on_y vor ps :=
  build_tree_on_yAux_congr vor fl ps.length ps h (Nat.le_refl _)

/-- One-step unfolding of `_build_tree_on_y` on a non-empty list: the list
is sorted in place by feature-space y, the median is the element at index
`length / 2` of the sorted list, and the children are built from the
slices before and after it. -/
theorem build_tree_on_y_eq (vor : List (Int × Int) → Except String D)
    (ps : List Node) (h : ps ≠ []) :
    build_tree_on_y vor ps =
      (YTree.node ((sortByY ps).getD (ps.length / 2) default)
        (build_tree_on_y vor ((sortByY ps).take (ps.length / 2))).1
        (build_tree_on_y vor ((sortByY ps).drop (ps.length / 2 + 1))).1
        (compute_voronoi vor (sortByY ps)),
      sortByY ps) := by
  have hlen : 1 ≤ ps.length := by
    cases ps with
    | nil => exact absurd rfl h
    | cons a l => simp
  obtain ⟨n, hn⟩ : ∃ n, ps.length = n + 1 := ⟨ps.length - 1, by omega⟩
  have hps : ps.isEmpty = false := by
    cases ps with
    | nil => simp at hlen
    | cons a l => rfl
  have hslen : (sortByY ps).length = ps.length := sortByY_length ps
  show build_tree_on_yAux vor ps.length ps = _
  rw [hn]
  simp only [build_tree_on_yAux, hps, Bool.false_eq_true, if_false]
  rw [build_tree_on_yAux_eq vor n _ (by simp only [List.length_take]; omega),
    build_tree_on_yAux_eq vor n _ (by simp only [List.length_drop]; omega),
    hslen, hn]

theorem build_tree_on_y_snd (vor : List (Int × Int) → Except String D)
    (ps : List Node) (h : ps ≠ []) :
    (build_tree_on_y vor ps).2 = sortByY ps := by
  rw [build_tree_on_y_eq vor ps h]

theorem build_tree_on_xAux_congr (vor : List (Int × Int) → Except String D) :
    ∀ fl₁ fl₂ ps, ps.length ≤ fl₁ → ps.length ≤ fl₂ →
      build_tree_on_xAux vor fl₁ ps = build_tree_on_xAux vor fl₂ ps := by
  intro fl₁
  induction fl₁ with
  | zero =>
    intro fl₂ ps h₁ _
    have hps : ps = [] := List.length_eq_zero.mp (Nat.le_zero.mp h₁)
    subst hps
    cases fl₂ <;> simp [build_tree_on_xAux]
  | succ fl ih =>
    intro fl₂ ps h₁ h₂
    by_cases hps : ps.isEmpty
    · have hps2 : ps = [] := by simpa [List.isEmpty_iff] using hps
      subst hps2
      cases fl₂ <;> simp [build_tree_on_xAux]
    · have hlen : 1 ≤ ps.length := by
        cases ps with
        | nil => simp at hps
        | cons a l => simp
      obtain ⟨fl₂p, rfl⟩ : ∃ k, fl₂ = k + 1 := by
        cases fl₂ with
        | zero => omega
        | succ k => exact ⟨k, rfl⟩
      simp only [build_tree_on_xAux, hps, Bool.false_eq_true, if_false]
      have hslen : (sortByX ps).length = ps.length := sortByX_length ps
      have htake : ((sortByX ps).take ((sortByX ps).length / 2)).length ≤ fl := by
        simp only [List.length_take]
        omega
      have hdrop : ((sortByX ps).drop ((sortByX ps).length / 2 + 1)).length ≤ fl := by
        simp only [List.length_drop]
        omega
      have htake2 : ((sortByX ps).take ((sortByX ps).length / 2)).length ≤ fl₂p := by
        simp only [List.length_take]
        omega
      have hdrop2 : ((sortByX ps).drop ((sortByX ps).length / 2 + 1)).length ≤ fl₂p := by
        simp only [List.length_drop]
        omega
      rw [ih fl₂p _ htake htake2, ih fl₂p _ hdrop hdrop2]

theorem build_tree_on_xAux_eq (vor : List (Int × Int) → Except String D)
    (fl : Nat) (ps : List Node) (h : ps.length ≤ fl) :
    build_tree_on_xAux vor fl ps = build_tree_on_x vor ps :=
  build_tree_on_xAux_congr vor fl ps.length ps h (Nat.le_refl _)

/-- One-step unfolding of `_build_tree_on_x` on a non-empty list. The
median and the child slices come from the x-sorted state; the nested
secondary build then re-sorts the list object by y in place, so
`points_sorted_by_y`, the voronoi computation, and the final list state
all see `sortByY (sortByX ps)`. -/
theorem build_tree_on_x_eq (vor : List (Int × Int) → Except String D)
    (ps : List Node) (h : ps ≠ []) :
    build_tree_on_x vor ps =
      (XTree.node ((sortByX ps).getD (ps.length / 2) default)
        (build_tree_on_x vor ((sortByX ps).take (ps.length / 2))).1
        (build_tree_on_x vor ((sortByX ps).drop (ps.length / 2 + 1))).1
        (build_tree_on_y vor (sortByX ps)).1
        (sortByY (sortByX ps))
        (compute_voronoi vor (sortByY (sortByX ps))),
      sortByY (sortByX ps)) := by
  have hlen : 1 ≤ ps.length := by
    cases ps with
    | nil => exact absurd rfl h
    | cons a l => simp
  obtain ⟨n, hn⟩ : ∃ n, ps.length = n + 1 := ⟨ps.length - 1, by omega⟩
  have hps : ps.isEmpty = false := by
    cases ps with
    | nil => simp at hlen
    | cons a l => rfl
  have hslen : (sortByX ps).length = ps.length := sortByX_length ps
  have hxne : sortByX ps ≠ [] := by
    intro hcon
    rw [hcon] at hslen
    simp at hslen
    omega
  have hsnd : (build_tree_on_y vor (sortByX ps)).2 = sortByY (sortByX ps) :=
    build_tree_on_y_snd vor (sortByX ps) hxne
  show build_tree_on_xAux vor ps.length ps = _
  rw [hn]
  simp only [build_tree_on_xAux, hps, Bool.false_eq_true, if_false]
  rw [build_tree_on_xAux_eq vor n _ (by simp only [List.length_take]; omega),
    build_tree_on_xAux_eq vor n _ (by simp only [List.length_drop]; omega),
    hsnd, sortByY_idem, hslen, hn]

/-! ### The points stored in a built tree are exactly the sorted input -/

theorem build_tree_on_y_fst_toList (vor : List (Int × Int) → Except String D)
    (ps : List Node) : ((build_tree_on_y vor ps).1).toList = sortByY ps := by
  suffices h : ∀ n (ps : List Node), ps.length = n →
      ((build_tree_on_y vor ps).1).toList = sortByY ps from h ps.length ps rfl
  intro n
  induction n using Nat.strong_induction_on with
  | _ n ih =>
    intro ps hn
    by_cases hps : ps = []
    · subst hps
      rfl
    · have hlen : 0 < ps.length := List.length_pos.mpr hps
      have hslen : (sortByY ps).length = ps.length := sortByY_length ps
      have hmid : ps.length / 2 < (sortByY ps).length := by omega
      rw [build_tree_on_y_eq vor ps hps]
      dsimp only
      simp only [YTree.toList]
      rw [ih ((sortByY ps).take (ps.length / 2)).length
          (by simp only [List.length_take]; omega) _ rfl,
        ih ((sortByY ps).drop (ps.length / 2 + 1)).length
          (by simp only [List.length_drop]; omega) _ rfl]
      rw [sortByY_eq_self ((sortByY_sorted ps).sublist (List.take_sublist _ _)),
        sortByY_eq_self ((sortByY_sorted ps).sublist (List.drop_sublist _ _))]
      exact take_getD_drop (sortByY ps) (ps.length / 2) hmid

theorem build_tree_on_x_fst_toList (vor : List (Int × Int) → Except String D)
    (ps : List Node) : ((build_tree_on_x vor ps).1).toList = sortByX ps := by
  suffices h : ∀ n (ps : List Node), ps.length = n →
      ((build_tree_on_x vor ps).1).toList = sortByX ps from h ps.length ps rfl
  intro n
  induction n using Nat.strong_induction_on with
  | _ n ih =>
    intro ps hn
    by_cases hps : ps = []
    · subst hps
      rfl
    · have hlen : 0 < ps.length := List.length_pos.mpr hps
      have hslen : (sortByX ps).length = ps.length := sortByX_length ps
      have hmid : ps.length / 2 < (sortByX ps).length := by omega
      rw [build_tree_on_x_eq vor ps hps]
      dsimp only
      simp only [XTree.toList]
      rw [ih ((sortByX ps).take (ps.length / 2)).length
          (by simp only [List.length_take]; omega) _ rfl,
        ih ((sortByX ps).drop (ps.length / 2 + 1)).length
          (by simp only [List.length_drop]; omega) _ rfl]
      rw [sortByX_eq_self ((sortByX_sorted ps).sublist (List.take_sublist _ _)),
        sortByX_eq_self ((sortByX_sorted ps).sublist (List.drop_sublist _ _))]
      exact take_getD_drop (sortByX ps) (ps.length / 2) hmid

theorem toList_length_y (t : YTree D) : t.toList.length = t.size := by
  induction t with
  | leaf => rfl
  | node p l r v ihl ihr =>
    simp only [YTree.toList, YTree.size, List.length_append, List.length_cons,
      ihl, ihr]
    omega

theorem toList_length_x (t : XTree D) : t.toList.length = t.size := by
  induction t with
  | leaf => rfl
  | node p l r yt sby v ihl ihr =>
    simp only [XTree.toList, XTree.size, List.length_append, List.length_cons,
      ihl, ihr]
    omega

theorem build_tree_on_x_size (vor : List (Int × Int) → Except String D)
    (ps : List Node) : ((build_tree_on_x vor ps).1).size = ps.length := by
  rw [← toList_length_x, build_tree_on_x_fst_toList, sortByX_length]

theorem build_tree_on_x_toList_perm (vor : List (Int × Int) → Except String D)
    (ps : List Node) : ((build_tree_on_x vor ps).1).toList.Perm ps := by
  rw [build_tree_on_x_fst_toList]
  exact sortByX_perm ps

/-! ### The query traversal -/

theorem query_tree_eq_append (t : XTree D) (q : Node) :
    ∀ acc, query_tree t q acc = acc ++ visitedPath t q := by
  induction t with
  | leaf =>
    intro acc
    simp [query_tree, visitedPath]
  | node p l r yt sby v ihl ihr =>
    intro acc
    by_cases hx : q.feature_point.x ≤ p.feature_point.x
    · simp only [query_tree, visitedPath, if_pos hx, ihl]
      simp
    · simp only [query_tree, visitedPath, if_neg hx, ihr]
      simp

theorem query_eq_visitedPath (t : XTree D) (q : Node) :
    query t q = visitedPath t q := by
  rw [query, query_tree_eq_append]
  rfl

theorem visitedPath_length_le_height (t : XTree D) (q : Node) :
    (visitedPath t q).length ≤ t.height := by
  induction t with
  | leaf =>
    simp [visitedPath, XTree.height]
  | node p l r yt sby v ihl ihr =>
    simp only [visitedPath, XTree.height, List.length_cons]
    by_cases hx : q.feature_point.x ≤ p.feature_point.x
    · rw [if_pos hx]
      omega
    · rw [if_neg hx]
      omega

theorem query_length_le_height (t : XTree D) (q : Node) :
    (query t q).length ≤ t.height := by
  rw [query_eq_visitedPath]
  exact visitedPath_length_le_height t q

theorem build_tree_on_x_height_le (vor : List (Int × Int) → Except String D)
    (ps : List Node) : ((build_tree_on_x vor ps).1).height ≤ ps.length := by
  suffices h : ∀ n (ps : List Node), ps.length = n →
      ((build_tree_on_x vor ps).1).height ≤ ps.length from h ps.length ps rfl
  intro n
  induction n using Nat.strong_induction_on with
  | _ n ih =>
    intro ps hn
    by_cases hps : ps = []
    · subst hps
      exact Nat.le_refl 0
    · have hlen : 0 < ps.length := List.length_pos.mpr hps
      have hslen : (sortByX ps).length = ps.length := sortByX_length ps
      rw [build_tree_on_x_eq vor ps hps]
      dsimp only
      simp only [XTree.height]
      have h1 := ih ((sortByX ps).take (ps.length / 2)).length
        (by simp only [List.length_take]; omega) _ rfl
      have h2 := ih ((sortByX ps).drop (ps.length / 2 + 1)).length
        (by simp only [List.length_drop]; omega) _ rfl
      simp only [List.length_take, List.length_drop] at h1 h2
      omega

theorem build_tree_on_x_height_lt (vor : List (Int × Int) → Except String D)
    (ps : List Node) (h : 3 ≤ ps.length) :
    ((build_tree_on_x vor ps).1).height < ps.length := by
  have hps : ps ≠ [] := by
    intro hc
    rw [hc] at h
    simp at h
  have hslen : (sortByX ps).length = ps.length := sortByX_length ps
  have h1 := build_tree_on_x_height_le vor ((sortByX ps).take (ps.length / 2))
  have h2 := build_tree_on_x_height_le vor ((sortByX ps).drop (ps.length / 2 + 1))
  simp only [List.length_take, List.length_drop] at h1 h2
  rw [build_tree_on_x_eq vor ps hps]
  dsimp only
  simp only [XTree.height]
  omega

/-! ### Structural invariants of built trees -/

theorem build_tree_on_y_fst_size (vor : List (Int × Int) → Except String D)
    (ps : List Node) : ((build_tree_on_y vor ps).1).size = ps.length := by
  rw [← toList_length_y, build_tree_on_y_fst_toList, sortByY_length]

theorem build_tree_on_x_secondaryInv (vor : List (Int × Int) → Except String D)
    (ps : List Node) : ((build_tree_on_x vor ps).1).secondaryInv := by
  suffices h : ∀ n (ps : List Node), ps.length = n →
      ((build_tree_on_x vor ps).1).secondaryInv from h ps.length ps rfl
  intro n
  induction n using Nat.strong_induction_on with
  | _ n ih =>
    intro ps hn
    by_cases hps : ps = []
    · subst hps
      trivial
    · have hlen : 0 < ps.length := List.length_pos.mpr hps
      have hslen : (sortByX ps).length = ps.length := sortByX_length ps
      have hmid : ps.length / 2 < (sortByX ps).length := by omega
      have hl : ((build_tree_on_x vor ((sortByX ps).take (ps.length / 2))).1).toList
          = (sortByX ps).take (ps.length / 2) := by
        rw [build_tree_on_x_fst_toList,
          sortByX_eq_self ((sortByX_sorted ps).sublist (List.take_sublist _ _))]
      have hr : ((build_tree_on_x vor
            ((sortByX ps).drop (ps.length / 2 + 1))).1).toList
          = (sortByX ps).drop (ps.length / 2 + 1) := by
        rw [build_tree_on_x_fst_toList,
          sortByX_eq_self ((sortByX_sorted ps).sublist (List.drop_sublist _ _))]
      rw [build_tree_on_x_eq vor ps hps]
      dsimp only
      simp only [XTree.secondaryInv]
      have hperm : (sortByY (sortByX ps)).Perm
          (((build_tree_on_x vor ((sortByX ps).take (ps.length / 2))).1).toList
            ++ (sortByX ps).getD (ps.length / 2) default ::
            ((build_tree_on_x vor
              ((sortByX ps).drop (ps.length / 2 + 1))).1).toList) := by
        rw [hl, hr, take_getD_drop (sortByX ps) (ps.length / 2) hmid]
        exact sortByY_perm (sortByX ps)
      refine ⟨sortByY_sorted (sortByX ps), hperm, hperm.length_eq, ?_, ?_⟩
      · exact ih ((sortByX ps).take (ps.length / 2)).length
          (by simp only [List.length_take]; omega) _ rfl
      · exact ih ((sortByX ps).drop (ps.length / 2 + 1)).length
          (by simp only [List.length_drop]; omega) _ rfl

theorem build_tree_on_y_orderedByY (vor : List (Int × Int) → Except String D)
    (ps : List Node) : ((build_tree_on_y vor ps).1).orderedByY := by
  suffices h : ∀ n (ps : List Node), ps.length = n →
      ((build_tree_on_y vor ps).1).orderedByY from h ps.length ps rfl
  intro n
  induction n using Nat.strong_induction_on with
  | _ n ih =>
    intro ps hn
    by_cases hps : ps = []
    · subst hps
      trivial
    · have hlen : 0 < ps.length := List.length_pos.mpr hps
      have hslen : (sortByY ps).length = ps.length := sortByY_length ps
      have hmid : ps.length / 2 < (sortByY ps).length := by omega
      have hsplit := sorted_split (sortByY ps) (ps.length / 2) hmid
        (sortByY_sorted ps)
      have hl : ((build_tree_on_y vor ((sortByY ps).take (ps.length / 2))).1).toList
          = (sortByY ps).take (ps.length / 2) := by
        rw [build_tree_on_y_fst_toList,
          sortByY_eq_self ((sortByY_sorted ps).sublist (List.take_sublist _ _))]
      have hr : ((build_tree_on_y vor
            ((sortByY ps).drop (ps.length / 2 + 1))).1).toList
          = (sortByY ps).drop (ps.length / 2 + 1) := by
        rw [build_tree_on_y_fst_toList,
          sortByY_eq_self ((sortByY_sorted ps).sublist (List.drop_sublist _ _))]
      rw [build_tree_on_y_eq vor ps hps]
      dsimp only
      simp only [YTree.orderedByY]
      refine ⟨?_, ?_, ?_, ?_⟩
      · intro q hq
        rw [hl] at hq
        exact hsplit.1 q hq
      · intro q hq
        rw [hr] at hq
        exact hsplit.2 q hq
      · exact ih ((sortByY ps).take (ps.length / 2)).length
          (by simp only [List.length_take]; omega) _ rfl
      · exact ih ((sortByY ps).drop (ps.length / 2 + 1)).length
          (by simp only [List.length_drop]; omega) _ rfl

theorem build_tree_on_x_orderedByX (vor : List (Int × Int) → Except String D)
    (ps : List Node) : ((build_tree_on_x vor ps).1).orderedByX := by
  suffices h : ∀ n (ps : List Node), ps.length = n →
      ((build_tree_on_x vor ps).1).orderedByX from h ps.length ps rfl
  intro n
  induction n using Nat.strong_induction_on with
  | _ n ih =>
    intro ps hn
    by_cases hps : ps = []
    · subst hps
      trivial
    · have hlen : 0 < ps.length := List.length_pos.mpr hps
      have hslen : (sortByX ps).length = ps.length := sortByX_length ps
      have hmid : ps.length / 2 < (sortByX ps).length := by omega
      have hsplit := sorted_split (sortByX ps) (ps.length / 2) hmid
        (sortByX_sorted ps)
      have hl : ((build_tree_on_x vor ((sortByX ps).take (ps.length / 2))).1).toList
          = (sortByX ps).take (ps.length / 2) := by
        rw [build_tree_on_x_fst_toList,
          sortByX_eq_self ((sortByX_sorted ps).sublist (List.take_sublist _ _))]
      have hr : ((build_tree_on_x vor
            ((sortByX ps).drop (ps.length / 2 + 1))).1).toList
          = (sortByX ps).drop (ps.length / 2 + 1) := by
        rw [build_tree_on_x_fst_toList,
          sortByX_eq_self ((sortByX_sorted ps).sublist (List.drop_sublist _ _))]
      rw [build_tree_on_x_eq vor ps hps]
      dsimp only
      simp only [XTree.orderedByX]
      refine ⟨?_, ?_, ?_, ?_, ?_⟩
      · intro q hq
        rw [hl] at hq
        exact hsplit.1 q hq
      · intro q hq
        rw [hr] at hq
        exact hsplit.2 q hq
      · exact ih ((sortByX ps).take (ps.length / 2)).length
          (by simp only [List.length_take]; omega) _ rfl
      · exact ih ((sortByX ps).drop (ps.length / 2 + 1)).length
          (by simp only [List.length_drop]; omega) _ rfl
      · exact build_tree_on_y_orderedByY vor (sortByX ps)

/-! ### Diagram gating -/

theorem compute_voronoi_small (vor : List (Int × Int) → Except String D)
    (pts : List Node) (h : pts.length < 4) :
    compute_voronoi vor pts = none := by
  simp [compute_voronoi, h]

theorem compute_voronoi_error (vor : List (Int × Int) → Except String D)
    (pts : List Node) (e : String)
    (h : vor (realCoords pts) = Except.error e) :
    compute_voronoi vor pts = none := by
  unfold compute_voronoi
  split
  · rfl
  · rw [h]

theorem build_tree_on_y_diagramGated (vor : List (Int × Int) → Except String D)
    (ps : List Node) : ((build_tree_on_y vor ps).1).diagramGated := by
  suffices h : ∀ n (ps : List Node), ps.length = n →
      ((build_tree_on_y vor ps).1).diagramGated from h ps.length ps rfl
  intro n
  induction n using Nat.strong_induction_on with
  | _ n ih =>
    intro ps hn
    by_cases hps : ps = []
    · subst hps
      trivial
    · have hlen : 0 < ps.length := List.length_pos.mpr hps
      have hslen : (sortByY ps).length = ps.length := sortByY_length ps
      have hsl : ((build_tree_on_y vor ((sortByY ps).take (ps.length / 2))).1).size
          = ((sortByY ps).take (ps.length / 2)).length :=
        build_tree_on_y_fst_size vor _
      have hsr : ((build_tree_on_y vor
            ((sortByY ps).drop (ps.length / 2 + 1))).1).size
          = ((sortByY ps).drop (ps.length / 2 + 1)).length :=
        build_tree_on_y_fst_size vor _
      simp only [List.length_take, List.length_drop] at hsl hsr
      rw [build_tree_on_y_eq vor ps hps]
      dsimp only
      simp only [YTree.diagramGated]
      refine ⟨?_, ?_, ?_⟩
      · intro h4
        apply compute_voronoi_small
        omega
      · exact ih ((sortByY ps).take (ps.length / 2)).length
          (by simp only [List.length_take]; omega) _ rfl
      · exact ih ((sortByY ps).drop (ps.length / 2 + 1)).length
          (by simp only [List.length_drop]; omega) _ rfl

theorem build_tree_on_x_diagramGated (vor : List (Int × Int) → Except String D)
    (ps : List Node) : ((build_tree_on_x vor ps).1).diagramGated := by
  suffices h : ∀ n (ps : List Node), ps.length = n →
      ((build_tree_on_x vor ps).1).diagramGated from h ps.length ps rfl
  intro n
  induction n using Nat.strong_induction_on with
  | _ n ih =>
    intro ps hn
    by_cases hps : ps = []
    · subst hps
      trivial
    · have hlen : 0 < ps.length := List.length_pos.mpr hps
      have hslen : (sortByX ps).length = ps.length := sortByX_length ps
      have hsl : ((build_tree_on_x vor ((sortByX ps).take (ps.length / 2))).1).size
          = ((sortByX ps).take (ps.length / 2)).length :=
        build_tree_on_x_size vor _
      have hsr : ((build_tree_on_x vor
            ((sortByX ps).drop (ps.length / 2 + 1))).1).size
          = ((sortByX ps).drop (ps.length / 2 + 1)).length :=
        build_tree_on_x_size vor _
      simp only [List.length_take, List.length_drop] at hsl hsr
      rw [build_tree_on_x_eq vor ps hps]
      dsimp only
      simp only [XTree.diagramGated]
      refine ⟨?_, ?_, ?_, ?_⟩
      · intro h4
        apply compute_voronoi_small
        rw [sortByY_length, sortByX_length]
        omega
      · exact ih ((sortByX ps).take (ps.length / 2)).length
          (by simp only [List.length_take]; omega) _ rfl
      · exact ih ((sortByX ps).drop (ps.length / 2 + 1)).length
          (by simp only [List.length_drop]; omega) _ rfl
      · exact build_tree_on_y_diagramGated vor (sortByX ps)

/-! ### The claims -/

/-- Claim C1: for every tree and target point, `query` returns the ordered
visited-node sequence: empty once the current node is absent, otherwise
the current node followed by the visit of the left child when the target
feature-space x is at most the median feature-space x, else of the right
child — that is, `query` coincides with the direct root-to-leaf recursion
`visitedPath`, so the result is in root-to-leaf order. -/
theorem claim_C1_query_visited_path (t : XTree D) (target : Node) :
    query t target = visitedPath t target :=
  query_eq_visitedPath t target

/-- Claim C2: the primary build maps the empty input to an absent tree,
and a non-empty input to a node whose median is element `n / 2` of the
input sorted ascending by feature-space x, whose left child is built from
the elements before the median and whose right child from the elements
after it. -/
theorem claim_C2_build_split (vor : List (Int × Int) → Except String D)
    (ps : List Node) (h : ps ≠ []) :
    (build_tree_on_x vor ([] : List Node)).1 = XTree.leaf ∧
    (sortByX ps).Perm ps ∧ List.Sorted xLe (sortByX ps) ∧
    ∃ yt sby v,
      (build_tree_on_x vor ps).1 =
        XTree.node ((sortByX ps).getD (ps.length / 2) default)
          (build_tree_on_x vor ((sortByX ps).take (ps.length / 2))).1
          (build_tree_on_x vor ((sortByX ps).drop (ps.length / 2 + 1))).1
          yt sby v := by
  refine ⟨rfl, sortByX_perm ps, sortByX_sorted ps,
    (build_tree_on_y vor (sortByX ps)).1, sortByY (sortByX ps),
    compute_voronoi vor (sortByY (sortByX ps)), ?_⟩
  rw [build_tree_on_x_eq vor ps h]

/-- Witness for claim C2 at a concrete three-point input. -/
theorem claim_C2_build_split_witness :
    (build_tree_on_x vorFail ([] : List Node)).1 = XTree.leaf ∧
    (sortByX wit_three).Perm wit_three ∧ List.Sorted xLe (sortByX wit_three) ∧
    ∃ yt sby v,
      (build_tree_on_x vorFail wit_three).1 =
        XTree.node ((sortByX wit_three).getD (wit_three.length / 2) default)
          (build_tree_on_x vorFail
            ((sortByX wit_three).take (wit_three.length / 2))).1
          (build_tree_on_x vorFail
            ((sortByX wit_three).drop (wit_three.length / 2 + 1))).1
          yt sby v :=
  claim_C2_build_split vorFail wit_three (by decide)

/-- Counterexample to claim C3: in the very scenario the spec names — a
feature-space list of length 14 and a real-space list of length 15 — the
entry point signals no error at all and builds a non-empty tree, instead
of signalling MismatchedInputLengths and building no tree. -/
theorem claim_C3_counterexample :
    demo_feature_space14.length = 14 ∧ demo_real_space.length = 15 ∧
    (mkPoints demo_feature_space14 demo_real_space).isOk = true ∧
    ((build_tree_on_x vorFail
        ((mkPoints demo_feature_space14 demo_real_space).toOption.getD
          [])).1).isLeaf = false := by
  decide

/-- Claim C3 amended: the entry point performs no length validation. It
iterates over the feature-space list and indexes the real-space list, so
when the real-space list is strictly shorter construction aborts with an
IndexError (not a MismatchedInputLengths error), and otherwise — in
particular for a feature-space list of length 14 and a real-space list of
length 15 — construction succeeds silently, using the first
`feature_space.length` real-space entries. -/
theorem claim_C3_amended (feature_space real_space : List (Int × Int)) :
    (real_space.length < feature_space.length →
      mkPoints feature_space real_space = Except.error "IndexError") ∧
    (feature_space.length ≤ real_space.length →
      (mkPoints feature_space real_space).isOk = true) := by
  constructor
  · intro h
    rw [mkPoints, if_pos h]
  · intro h
    rw [mkPoints, if_neg (by omega)]
    rfl

/-- Witness for the amended claim C3, at the sample lists: shorter
real-space list on the left, shorter feature-space list on the right. -/
theorem claim_C3_amended_witness :
    mkPoints demo_feature_space demo_real_space.dropLast
      = Except.error "IndexError" ∧
    (mkPoints demo_feature_space14 demo_real_space).isOk = true :=
  ⟨(claim_C3_amended demo_feature_space demo_real_space.dropLast).1 (by decide),
   (claim_C3_amended demo_feature_space14 demo_real_space).2 (by decide)⟩

/-- Counterexample to claim C4: building from a concrete two-point list
whose feature x-order disagrees with its list order leaves the input list
object changed — the in-place sorts reorder it. -/
theorem claim_C4_counterexample :
    (build_tree_on_x vorFail cex_unsorted2).2 ≠ cex_unsorted2 := by
  decide

/-- Claim C4 amended: besides the DiagramProvider call effects, building
has exactly one further side effect — it reorders the input list in
place. The list afterwards is a permutation of the input (same elements,
same multiplicities), namely, for non-empty input, the input stably
sorted by feature-space y after being stably sorted by feature-space x. -/
theorem claim_C4_amended (vor : List (Int × Int) → Except String D)
    (ps : List Node) :
    ((build_tree_on_x vor ps).2).Perm ps ∧
    (ps ≠ [] → (build_tree_on_x vor ps).2 = sortByY (sortByX ps)) := by
  have key : ps ≠ [] → (build_tree_on_x vor ps).2 = sortByY (sortByX ps) := by
    intro hps
    rw [build_tree_on_x_eq vor ps hps]
  refine ⟨?_, key⟩
  by_cases hps : ps = []
  · subst hps
    exact List.Perm.refl _
  · rw [key hps]
    exact (sortByY_perm _).trans (sortByX_perm _)

/-- Witness for the amended claim C4 at a concrete two-point input. -/
theorem claim_C4_amended_witness :
    ((build_tree_on_x vorFail cex_unsorted2).2).Perm cex_unsorted2 ∧
    (build_tree_on_x vorFail cex_unsorted2).2
      = sortByY (sortByX cex_unsorted2) :=
  ⟨(claim_C4_amended vorFail cex_unsorted2).1,
   (claim_C4_amended vorFail cex_unsorted2).2 (by decide)⟩

/-- Counterexample to claim C5: a tree built from n = 2 > 1 points on
which the query visits exactly 2 = n nodes, not strictly fewer than n. -/
theorem claim_C5_counterexample :
    cex_two.length = 2 ∧
    (query (build_tree_on_x vorFail cex_two).1 target0).length = 2 ∧
    ¬((query (build_tree_on_x vorFail cex_two).1 target0).length
        < cex_two.length) := by
  decide

/-- Claim C5 amended: for every tree and target the query visits at most
`height` nodes, where `XTree.height` counts the nodes of a longest
root-to-leaf path — i.e. h + 1 for a tree of edge-counting height h — and
for every tree built from n > 2 points the query visits strictly fewer
than n nodes (for n = 2 it can visit exactly n, as the counterexample
shows). -/
theorem claim_C5_amended (vor : List (Int × Int) → Except String D) :
    (∀ (t : XTree D) (q : Node), (query t q).length ≤ t.height) ∧
    (∀ (ps : List Node) (q : Node), 2 < ps.length →
      (query (build_tree_on_x vor ps).1 q).length < ps.length) := by
  refine ⟨fun t q => query_length_le_height t q, fun ps q h => ?_⟩
  exact lt_of_le_of_lt (query_length_le_height _ q)
    (build_tree_on_x_height_lt vor ps h)

/-- Witness for the amended claim C5: on a three-point input the query
visits fewer than 3 nodes. -/
theorem claim_C5_amended_witness :
    (query (build_tree_on_x vorFail wit_three).1 target0).length
      < wit_three.length :=
  (claim_C5_amended vorFail).2 wit_three target0 (by decide)

/-- Claim C6: the primary tree built from an input of size n has exactly
n nodes, and the multiset of points stored across its nodes is exactly
the input multiset — every input point occupies exactly one node. -/
theorem claim_C6_node_count (vor : List (Int × Int) → Except String D)
    (ps : List Node) :
    ((build_tree_on_x vor ps).1).size = ps.length ∧
    ((build_tree_on_x vor ps).1).toList.Perm ps :=
  ⟨build_tree_on_x_size vor ps, build_tree_on_x_toList_perm vor ps⟩

/-- Claim C7: in every built primary tree, every node satisfies the
`points_sorted_by_y` invariant: the stored list is non-decreasing in
feature-space y and is a permutation — in particular of equal length — of
the point subset the node's build call received, which is exactly the
point set of the subtree rooted there (the second conjunct identifies
that subset with the input at the root). -/
theorem claim_C7_points_sorted_by_y (vor : List (Int × Int) → Except String D)
    (ps : List Node) :
    ((build_tree_on_x vor ps).1).secondaryInv ∧
    ((build_tree_on_x vor ps).1).toList.Perm ps ∧
    ((build_tree_on_x vor ps).1).toList.length = ps.length :=
  ⟨build_tree_on_x_secondaryInv vor ps, build_tree_on_x_toList_perm vor ps,
    (build_tree_on_x_toList_perm vor ps).length_eq⟩

/-- Claim C8: in every built tree, every node whose point subset has
fewer than 4 points carries no diagram; and `compute_voronoi` returns
`none` — rather than propagating a failure — both when given fewer than 4
points and when the external geometry computation reports an error. -/
theorem claim_C8_diagram_gating (vor : List (Int × Int) → Except String D) :
    (∀ ps : List Node, ((build_tree_on_x vor ps).1).diagramGated) ∧
    (∀ pts : List Node, pts.length < 4 → compute_voronoi vor pts = none) ∧
    (∀ (pts : List Node) (e : String),
      vor (realCoords pts) = Except.error e →
        compute_voronoi vor pts = none) :=
  ⟨fun ps => build_tree_on_x_diagramGated vor ps,
   fun pts h => compute_voronoi_small vor pts h,
   fun pts e h => compute_voronoi_error vor pts e h⟩

/-- Witness for claim C8: the small-input branch on a 2-point list and
the failing-service branch on a 6-point list. -/
theorem claim_C8_diagram_gating_witness :
    compute_voronoi vorFail cex_two = none ∧
    compute_voronoi vorFail (wit_three ++ wit_three) = none :=
  ⟨(claim_C8_diagram_gating vorFail).2.1 cex_two (by decide),
   (claim_C8_diagram_gating vorFail).2.2 (wit_three ++ wit_three)
     "Voronoi diagram could not be computed" rfl⟩

/-- Claim C9: building twice from the same ordered input yields the same
tree — in particular identical median selections and identical tree shape
at every level, as recorded by `XTree.medianShape`. -/
theorem claim_C9_determinism (vor : List (Int × Int) → Except String D)
    (ps₁ ps₂ : List Node) (h : ps₁ = ps₂) :
    (build_tree_on_x vor ps₁).1 = (build_tree_on_x vor ps₂).1 ∧
    ((build_tree_on_x vor ps₁).1).medianShape
      = ((build_tree_on_x vor ps₂).1).medianShape := by
  subst h
  exact ⟨rfl, rfl⟩

/-- Witness for claim C9 at a concrete three-point input. -/
theorem claim_C9_determinism_witness :
    (build_tree_on_x vorFail wit_three).1
      = (build_tree_on_x vorFail wit_three).1 ∧
    ((build_tree_on_x vorFail wit_three).1).medianShape
      = ((build_tree_on_x vorFail wit_three).1).medianShape :=
  claim_C9_determinism vorFail wit_three wit_three rfl

/-- Claim C10: in every built tree, every point in a primary node's left
subtree has feature-space x at most the node's median x and every point
in its right subtree has feature-space x at least it, and the analogous
ordering on feature-space y holds inside every nested secondary tree
(`XTree.orderedByX` requires `YTree.orderedByY` of the secondary tree at
every primary node). -/
theorem claim_C10_search_order (vor : List (Int × Int) → Except String D)
    (ps : List Node) :
    ((build_tree_on_x vor ps).1).orderedByX :=
  build_tree_on_x_orderedByX vor ps

end RangeTreePy
